import Mathlib

/-
Verification of the cycamore EnrichmentFacility (src/src/enrichment_facility.h)
against its natural-language specification.  The repository ships only the
header: the inline member functions (the converters, the getters and setters)
are embedded from the source, while the out-of-line member bodies
(ValidReq, AdjustMatlPrefs, GetMatlRequests, GetMatlBids, Enrich_) and the
external cyclus toolkit (Assays, SwuRequired, FeedQty, UraniumAssay,
MatQuery) are modelled from the words of the specification.  Floating-point
doubles are embedded as real numbers.
-/

namespace Cycamore

/-- Modelled from the spec: the enrichment value function of the external
cyclus toolkit, section 4.1 and the glossary: V of x is
(2x - 1) times the natural log of x over (1 - x). -/
noncomputable def V (x : ℝ) : ℝ := (2 * x - 1) * Real.log (x / (1 - x))

/-- Modelled from the spec: the immutable assay triple of the external cyclus
toolkit, section 3 of the spec: feed, product and tails U-235 mass
fractions. -/
structure Assays where
  feed : ℝ
  product : ℝ
  tails : ℝ

/-- Modelled from the spec: cyclus toolkit FeedQty, section 4.1: the feed
mass required to produce a given product quantity, from the mass balance,
product_qty times (product_assay - tails_assay) over
(feed_assay - tails_assay). -/
noncomputable def FeedQty (qty : ℝ) (a : Assays) : ℝ :=
  qty * (a.product - a.tails) / (a.feed - a.tails)

/-- Modelled from the spec: the tails mass produced alongside a given product
quantity, derived from the same mass balance (feed = product + tails). -/
noncomputable def TailsQty (qty : ℝ) (a : Assays) : ℝ :=
  qty * (a.product - a.feed) / (a.feed - a.tails)

/-- Modelled from the spec: cyclus toolkit SwuRequired, section 4.1: SWU =
product_qty V(product) + tails_qty V(tails) - feed_qty V(feed), with
tails_qty and feed_qty derived from the mass balance. -/
noncomputable def SwuRequired (qty : ℝ) (a : Assays) : ℝ :=
  qty * V a.product + TailsQty qty a * V a.tails - FeedQty qty a * V a.feed

/-- A material: a total mass and the masses of its two uranium isotopes
(section 3 of the spec; any further mass is non-uranium diluent). -/
structure Material where
  quantity : ℝ
  mass235 : ℝ
  mass238 : ℝ

/-- Modelled from the spec: cyclus toolkit UraniumAssay, per the glossary the
mass fraction of U-235 within total uranium of the material. -/
noncomputable def UraniumAssay (m : Material) : ℝ :=
  m.mass235 / (m.mass235 + m.mass238)

/-- Modelled from the spec: MatQuery multi_mass_frac over the nuclide set
U-235, U-238 (enrichment_facility.h lines 61-66): the fraction of the
material mass that is U-235 plus U-238 combined. -/
noncomputable def multiMassFracU (m : Material) : ℝ :=
  (m.mass235 + m.mass238) / m.quantity

/-- The closed set of converter kinds of the header, each carrying its feed
and tails parameters: SWUConverter (lines 14-40) and NatUConverter
(lines 47-81).  The concrete C++ class of an object becomes the
constructor. -/
inductive Converter where
  | swuConverter (feed tails : ℝ)
  | natuConverter (feed tails : ℝ)

/-- SWUConverter::convert (header lines 20-28): build an Assays triple from
the configured feed and tails with the material assay as product, and return
SwuRequired of the material quantity. -/
noncomputable def SWUConverter.convert (feed_ tails_ : ℝ) (m : Material) : ℝ :=
  SwuRequired m.quantity (Assays.mk feed_ (UraniumAssay m) tails_)

/-- NatUConverter::convert (header lines 53-69): same assay setup, then the
FeedQty of the material quantity divided by the U-235 plus U-238 mass
fraction of the material. -/
noncomputable def NatUConverter.convert (feed_ tails_ : ℝ) (m : Material) : ℝ :=
  FeedQty m.quantity (Assays.mk feed_ (UraniumAssay m) tails_) / multiMassFracU m

/-- SWUConverter::operator== (header lines 31-36): true iff the other
converter dynamic_casts to SWUConverter and feed and tails are equal. -/
def SWUConverter.operatorEq (feed_ tails_ : ℝ) : Converter → Prop
  | Converter.swuConverter f t => feed_ = f ∧ tails_ = t
  | Converter.natuConverter _ _ => False

/-- NatUConverter::operator== (header lines 72-77): true iff the other
converter dynamic_casts to NatUConverter and feed and tails are equal. -/
def NatUConverter.operatorEq (feed_ tails_ : ℝ) : Converter → Prop
  | Converter.swuConverter _ _ => False
  | Converter.natuConverter f t => feed_ = f ∧ tails_ = t

/-- The facility state variables of the header (lines 292-351), with the two
ResBuf inventories reduced to their quantities and the feed inventory
capacity (max_inv_size is mirrored into the inventory capacity by
SetMaxInventorySize, header lines 233-236). -/
structure EnrichmentFacility where
  in_commod : String
  out_commod : String
  in_recipe : String
  tails_commod : String
  tails_assay : ℝ
  swu_capacity : ℝ
  max_inv_size : ℝ
  max_enrich : ℝ
  initial_reserves : ℝ
  current_swu_capacity : ℝ
  inventoryQty : ℝ
  inventoryCap : ℝ
  tailsInvQty : ℝ

/-- The setter SwuCapacity (header lines 248-251): assign swu_capacity, then
assign current_swu_capacity from the just-written swu_capacity. -/
def EnrichmentFacility.SetSwuCapacity (ef : EnrichmentFacility) (capacity : ℝ) :
    EnrichmentFacility :=
  { ef with swu_capacity := capacity, current_swu_capacity := capacity }

/-- The getter SwuCapacity (header line 254). -/
def EnrichmentFacility.SwuCapacity (ef : EnrichmentFacility) : ℝ := ef.swu_capacity

/-- The getter CurrentSwuCapacity (header line 256). -/
def EnrichmentFacility.CurrentSwuCapacity (ef : EnrichmentFacility) : ℝ :=
  ef.current_swu_capacity

/-- Modelled from the spec: the body of EnrichmentFacility::ValidReq is not in
the repository files (only its declaration, header lines 207-211); per
section 4.4 of the spec an offered feed material is acceptable only if it
contains both U-235 and U-238 and its U-235 over total-uranium fraction is
strictly greater than tails_assay. -/
def ValidReq (tails_assay : ℝ) (m : Material) : Prop :=
  0 < m.mass235 ∧ 0 < m.mass238 ∧
    tails_assay < m.mass235 / (m.mass235 + m.mass238)

/-- A material request of the exchange: a quantity at a recipe. -/
structure MatlRequest where
  qty : ℝ
  recipe : String

/-- Modelled from the spec: the body of EnrichmentFacility::Request_ is not in
the repository files (only its declaration, header lines 272-274); per
section 4.4 the requested amount is the remaining headroom of the feed
inventory, capacity minus quantity. -/
noncomputable def Request_qty (ef : EnrichmentFacility) : ℝ :=
  ef.inventoryCap - ef.inventoryQty

open Classical in
/-- Modelled from the spec: the body of EnrichmentFacility::GetMatlRequests is
not in the repository files (only its declaration, header lines 174-175); per
section 4.4, if the headroom is at most epsilon no request is issued,
otherwise one single request of exactly that amount at the input recipe. -/
noncomputable def GetMatlRequests (ef : EnrichmentFacility) (eps : ℝ) :
    List MatlRequest :=
  if Request_qty ef ≤ eps then []
  else [MatlRequest.mk (Request_qty ef) ef.in_recipe]

open Classical in
/-- Modelled from the spec: the preference AdjustMatlPrefs assigns to a feed
offer (the body is not in the repository files, only its declaration, header
lines 177-180); per section 4.4, an offer whose U-235 mass fraction f is zero
or exceeds the U-235 fraction of the output recipe gets the rejecting value
-1, otherwise a preference increasing monotonically with f, embedded here as
f over the recipe fraction. -/
noncomputable def adjustedPref (recipeFrac f : ℝ) : ℝ :=
  if f = 0 ∨ recipeFrac < f then -1 else f / recipeFrac

/-- Modelled from the spec: the product quantity obtainable from S SWU,
section 4.4 bid sizing: the SWU converter inverted at the current feed assay,
so S divided by the SWU required per unit product. -/
noncomputable def swuCeilingQty (S : ℝ) (a : Assays) : ℝ := S / SwuRequired 1 a

/-- Modelled from the spec: the product quantity obtainable from a feed
inventory of quantity F, section 4.4 bid sizing: the natural-uranium
converter inverted the same way, F divided by the feed required per unit
product. -/
noncomputable def natuCeilingQty (F : ℝ) (a : Assays) : ℝ := F / FeedQty 1 a

/-- Modelled from the spec: the bid GetMatlBids offers for an output-commodity
request of quantity q (the body is not in the repository files, only its
declaration, header lines 191-193); per section 4.4 the bid is the minimum of
q, the SWU ceiling and the inventory ceiling. -/
noncomputable def bidQty (q S F : ℝ) (a : Assays) : ℝ :=
  min q (min (swuCeilingQty S a) (natuCeilingQty F a))

open Classical in
/-- Modelled from the spec: section 4.4, if the minimum is at most epsilon no
bid is placed for that request, otherwise the bid quantity is offered. -/
noncomputable def GetMatlBidsQty (q S F eps : ℝ) (a : Assays) : Option ℝ :=
  if bidQty q S F a ≤ eps then none else some (bidQty q S F a)

/-- The mutable runtime state Enrich_ acts on: the feed inventory quantity,
the tails inventory quantity and the remaining SWU budget of the period. -/
structure EFRuntime where
  inventoryQty : ℝ
  tailsInvQty : ℝ
  currentSwu : ℝ

/-- What a successful Enrich_ yields: the successor state, the product
material quantity handed to the trade, the tails quantity pushed, and the
natural uranium and SWU consumed. -/
structure EnrichResult where
  state : EFRuntime
  productQty : ℝ
  tailsProducedQty : ℝ
  natuUsed : ℝ
  swuUsed : ℝ

open Classical in
/-- Modelled from the spec: the body of EnrichmentFacility::Enrich_ is not in
the repository files (only its declaration, header line 284); per section 4.4
trade execution: compute swu_needed and natu_needed from the assay triple,
raise a constraint-violation error if swu_needed exceeds the current SWU
budget plus epsilon or natu_needed exceeds the feed inventory quantity plus
epsilon, and otherwise pop natu_needed from the feed inventory, push the
remainder mass natu_needed minus qty as tails, debit the SWU budget by
swu_needed and return the product of quantity qty. -/
noncomputable def Enrich_ (st : EFRuntime) (qty : ℝ) (a : Assays) (eps : ℝ) :
    Except Unit EnrichResult :=
  if st.currentSwu + eps < SwuRequired qty a ∨
      st.inventoryQty + eps < FeedQty qty a then
    Except.error ()
  else
    Except.ok
      (EnrichResult.mk
        (EFRuntime.mk (st.inventoryQty - FeedQty qty a)
          (st.tailsInvQty + (FeedQty qty a - qty))
          (st.currentSwu - SwuRequired qty a))
        qty (FeedQty qty a - qty) (FeedQty qty a) (SwuRequired qty a))

/-- Auxiliary function for the convexity analysis of the value function V:
gAux x = (2x - 1) log x, so that on the open unit interval
V x = gAux x + gAux (1 - x). -/
noncomputable def gAux (x : ℝ) : ℝ := (2 * x - 1) * Real.log x

/-- A concrete facility used by the closed witness statements. -/
noncomputable def efExample : EnrichmentFacility :=
  EnrichmentFacility.mk "natu" "eu" "natu_recipe" "depleted"
    (3 / 1000) 100 1000 1 0 100 10 1000 0

end Cycamore

namespace Cycamore

/-- C10: after the setter SwuCapacity runs with value c, both the SwuCapacity
getter and the CurrentSwuCapacity getter return c, whatever budget had
already been consumed. -/
theorem setSwuCapacity_resets_both (ef : EnrichmentFacility) (c : ℝ) :
    (ef.SetSwuCapacity c).SwuCapacity = c ∧
      (ef.SetSwuCapacity c).CurrentSwuCapacity = c :=
  ⟨rfl, rfl⟩

/-- C8: converter equality is structural over the closed kind set: each
operator== holds iff the other converter is of the same concrete kind with
equal feed and tails parameters, so converters of different kinds are never
equal even with identical parameters. -/
theorem converter_operatorEq_structural (feed_ tails_ : ℝ) (c : Converter) :
    (SWUConverter.operatorEq feed_ tails_ c ↔ c = Converter.swuConverter feed_ tails_) ∧
      (NatUConverter.operatorEq feed_ tails_ c ↔ c = Converter.natuConverter feed_ tails_) ∧
      ¬ SWUConverter.operatorEq feed_ tails_ (Converter.natuConverter feed_ tails_) := by
  refine ⟨?_, ?_, ?_⟩
  · cases c with
    | swuConverter f t =>
        simp only [SWUConverter.operatorEq, Converter.swuConverter.injEq]
        exact and_congr eq_comm eq_comm
    | natuConverter f t => simp [SWUConverter.operatorEq]
  · cases c with
    | swuConverter f t => simp [NatUConverter.operatorEq]
    | natuConverter f t =>
        simp only [NatUConverter.operatorEq, Converter.natuConverter.injEq]
        exact and_congr eq_comm eq_comm
  · simp [SWUConverter.operatorEq]

/-- C4: ValidReq holds for a material iff the material contains both U-235 and
U-238 and its U-235 over (U-235 + U-238) fraction, the UraniumAssay, is
strictly greater than the facility tails assay. -/
theorem ValidReq_iff (tails_assay : ℝ) (m : Material) :
    ValidReq tails_assay m ↔
      (0 < m.mass235 ∧ 0 < m.mass238 ∧ tails_assay < UraniumAssay m) :=
  Iff.rfl

/-- C5: NatUConverter::convert returns FeedQty of the material quantity at the
assay triple (configured feed, material uranium assay, configured tails),
divided by the combined U-235 plus U-238 mass fraction of the material. -/
theorem natuConverter_convert_eq (feed_ tails_ : ℝ) (m : Material) :
    NatUConverter.convert feed_ tails_ m =
      FeedQty m.quantity (Assays.mk feed_ (UraniumAssay m) tails_) /
        ((m.mass235 + m.mass238) / m.quantity) :=
  rfl

/-- C7: GetMatlRequests issues exactly one undivided request for the feed
inventory headroom, capacity minus quantity, at the input recipe, whenever
that headroom exceeds epsilon, and no request at all when the headroom is at
most epsilon. -/
theorem getMatlRequests_headroom (ef : EnrichmentFacility) (eps : ℝ) :
    (eps < ef.inventoryCap - ef.inventoryQty →
        GetMatlRequests ef eps =
          [MatlRequest.mk (ef.inventoryCap - ef.inventoryQty) ef.in_recipe]) ∧
      (ef.inventoryCap - ef.inventoryQty ≤ eps → GetMatlRequests ef eps = []) := by
  constructor
  · intro h
    unfold GetMatlRequests Request_qty
    rw [if_neg (not_le.mpr h)]
  · intro h
    unfold GetMatlRequests Request_qty
    rw [if_pos h]

end Cycamore

namespace Cycamore

/-- Strict convexity transfers along pointwise equality on the set. -/
theorem strictConvexOn_congr_of_eqOn {s : Set ℝ} {f g : ℝ → ℝ}
    (hfg : ∀ x ∈ s, f x = g x) (hf : StrictConvexOn ℝ s f) :
    StrictConvexOn ℝ s g := by
  refine ⟨hf.1, fun x hx y hy hxy a b ha hb hab => ?_⟩
  have hmem : a • x + b • y ∈ s := hf.1 hx hy ha.le hb.le hab
  rw [← hfg _ hx, ← hfg _ hy, ← hfg _ hmem]
  exact hf.2 hx hy hxy ha hb hab

/-- gAux is strictly convex on the open unit interval: it is the sum of twice
the strictly convex x log x and the strictly convex negation of log. -/
theorem gAux_strictConvexOn : StrictConvexOn ℝ (Set.Ioo (0:ℝ) 1) gAux := by
  have m : StrictConvexOn ℝ (Set.Ioo (0:ℝ) 1) (fun x => x * Real.log x) :=
    Real.strictConvexOn_mul_log.subset (fun x hx => hx.1.le) (convex_Ioo 0 1)
  have n : StrictConvexOn ℝ (Set.Ioo (0:ℝ) 1) (-Real.log) :=
    strictConcaveOn_log_Ioi.neg.subset (fun x hx => hx.1) (convex_Ioo 0 1)
  refine strictConvexOn_congr_of_eqOn (fun x hx => ?_) ((m.add m).add n)
  simp only [Pi.add_apply, Pi.neg_apply, gAux]
  ring

/-- The reflection x to gAux (1 - x) is strictly convex on the open unit
interval. -/
theorem gAux_comp_strictConvexOn :
    StrictConvexOn ℝ (Set.Ioo (0:ℝ) 1) (fun x => gAux (1 - x)) := by
  refine ⟨convex_Ioo 0 1, fun x hx y hy hxy a b ha hb hab => ?_⟩
  have hx1 : (1:ℝ) - x ∈ Set.Ioo (0:ℝ) 1 := ⟨by linarith [hx.2], by linarith [hx.1]⟩
  have hy1 : (1:ℝ) - y ∈ Set.Ioo (0:ℝ) 1 := ⟨by linarith [hy.2], by linarith [hy.1]⟩
  have hne : (1:ℝ) - x ≠ 1 - y := by
    intro h
    exact hxy (by linarith)
  have key := gAux_strictConvexOn.2 hx1 hy1 hne ha hb hab
  have harg : a • ((1:ℝ) - x) + b • ((1:ℝ) - y) = 1 - (a • x + b • y) := by
    simp only [smul_eq_mul]
    have h2 : a * (1 - x) + b * (1 - y) = (a + b) - (a * x + b * y) := by ring
    rw [h2, hab]
  rw [harg] at key
  exact key

/-- On the open unit interval, V decomposes as gAux x + gAux (1 - x). -/
theorem V_eq_gAux_add {x : ℝ} (hx : x ∈ Set.Ioo (0:ℝ) 1) :
    V x = gAux x + gAux (1 - x) := by
  have hx0 : x ≠ 0 := ne_of_gt hx.1
  have hx1 : (1:ℝ) - x ≠ 0 := sub_ne_zero.mpr hx.2.ne'
  unfold V gAux
  rw [Real.log_div hx0 hx1]
  ring

/-- The value function V is strictly convex on the open unit interval. -/
theorem V_strictConvexOn : StrictConvexOn ℝ (Set.Ioo (0:ℝ) 1) V := by
  refine strictConvexOn_congr_of_eqOn (fun x hx => ?_)
    (gAux_strictConvexOn.add gAux_comp_strictConvexOn)
  simp only [Pi.add_apply]
  exact (V_eq_gAux_add hx).symm

/-- FeedQty at an explicit assay triple. -/
theorem FeedQty_mk (qty f p t : ℝ) :
    FeedQty qty (Assays.mk f p t) = qty * (p - t) / (f - t) := rfl

/-- TailsQty at an explicit assay triple. -/
theorem TailsQty_mk (qty f p t : ℝ) :
    TailsQty qty (Assays.mk f p t) = qty * (p - f) / (f - t) := rfl

/-- SwuRequired at an explicit assay triple. -/
theorem SwuRequired_mk (qty f p t : ℝ) :
    SwuRequired qty (Assays.mk f p t) =
      qty * V p + qty * (p - f) / (f - t) * V t - qty * (p - t) / (f - t) * V f :=
  rfl

/-- SwuRequired is linear in the quantity. -/
theorem SwuRequired_linear (qty : ℝ) (a : Assays) :
    SwuRequired qty a = qty * SwuRequired 1 a := by
  unfold SwuRequired TailsQty FeedQty
  ring

/-- FeedQty is linear in the quantity. -/
theorem FeedQty_linear (qty : ℝ) (a : Assays) :
    FeedQty qty a = qty * FeedQty 1 a := by
  unfold FeedQty
  ring

/-- The common-denominator form of SwuRequired at an explicit triple. -/
theorem swu_expand (qty f p t : ℝ) (hft : f - t ≠ 0) :
    qty * V p + qty * (p - f) / (f - t) * V t - qty * (p - t) / (f - t) * V f
      = qty / (f - t) * ((f - t) * V p + (p - f) * V t - (p - t) * V f) := by
  field_simp
  ring

/-- Positivity of the separative work: with tails below feed below product,
all inside the open unit interval, a positive product quantity needs strictly
positive SWU.  The feed assay is the convex combination of product and tails
assays with the mass-balance weights, so strict convexity of V gives the
strict inequality. -/
theorem swuRequired_pos {qty t f p : ℝ} (hq : 0 < qty) (ht : 0 < t)
    (htf : t < f) (hfp : f < p) (hp1 : p < 1) :
    0 < SwuRequired qty (Assays.mk f p t) := by
  have hpt : (0:ℝ) < p - t := by linarith
  have hft : (0:ℝ) < f - t := by linarith
  have hpf : (0:ℝ) < p - f := by linarith
  have hpt' : p - t ≠ 0 := ne_of_gt hpt
  have hp : p ∈ Set.Ioo (0:ℝ) 1 := ⟨by linarith, hp1⟩
  have htm : t ∈ Set.Ioo (0:ℝ) 1 := ⟨ht, by linarith⟩
  have hpt_ne : p ≠ t := by
    intro h
    rw [h] at hfp
    linarith
  have hab : (f - t) / (p - t) + (p - f) / (p - t) = 1 := by
    rw [div_add_div_same, show f - t + (p - f) = p - t by ring]
    exact div_self hpt'
  have key := V_strictConvexOn.2 hp htm hpt_ne (div_pos hft hpt) (div_pos hpf hpt) hab
  simp only [smul_eq_mul] at key
  have harg : (f - t) / (p - t) * p + (p - f) / (p - t) * t = f := by
    field_simp
    ring
  rw [harg] at key
  have h2 := mul_lt_mul_of_pos_left key hpt
  have h3 : (p - t) * ((f - t) / (p - t) * V p + (p - f) / (p - t) * V t)
      = (f - t) * V p + (p - f) * V t := by
    field_simp
  have cross : (p - t) * V f < (f - t) * V p + (p - f) * V t := by linarith [h2, h3]
  rw [SwuRequired_mk, swu_expand qty f p t (ne_of_gt hft)]
  exact mul_pos (div_pos hq hft) (by linarith)

/-- Strict monotonicity of the separative work in the product assay, by the
secant-slope comparison of the strictly convex V: the slope of V between
tails and feed is strictly below the slope between the two product assays. -/
theorem swuRequired_strictMono_product {qty t f p₁ p₂ : ℝ} (hq : 0 < qty)
    (ht : 0 < t) (htf : t < f) (hf1 : f < p₁) (h12 : p₁ < p₂) (h21 : p₂ < 1) :
    SwuRequired qty (Assays.mk f p₁ t) < SwuRequired qty (Assays.mk f p₂ t) := by
  have hft : (0:ℝ) < f - t := by linarith
  have h21' : (0:ℝ) < p₂ - p₁ := by linarith
  have memt : t ∈ Set.Ioo (0:ℝ) 1 := ⟨ht, by linarith⟩
  have memf : f ∈ Set.Ioo (0:ℝ) 1 := ⟨by linarith, by linarith⟩
  have mem1 : p₁ ∈ Set.Ioo (0:ℝ) 1 := ⟨by linarith, by linarith⟩
  have mem2 : p₂ ∈ Set.Ioo (0:ℝ) 1 := ⟨by linarith, h21⟩
  have s1 := V_strictConvexOn.slope_strict_mono_adjacent memt mem1 htf hf1
  have s2 := V_strictConvexOn.slope_strict_mono_adjacent memf mem2 hf1 h12
  have s3 : (V f - V t) / (f - t) < (V p₂ - V p₁) / (p₂ - p₁) := lt_trans s1 s2
  rw [div_lt_div_iff₀ hft h21'] at s3
  have key : (f - t) * V p₁ + (p₁ - f) * V t - (p₁ - t) * V f
      < (f - t) * V p₂ + (p₂ - f) * V t - (p₂ - t) * V f := by nlinarith [s3]
  rw [SwuRequired_mk, SwuRequired_mk, swu_expand qty f p₁ t (ne_of_gt hft),
    swu_expand qty f p₂ t (ne_of_gt hft)]
  exact mul_lt_mul_of_pos_left key (div_pos hq hft)

end Cycamore

namespace Cycamore

/-- C9: SwuRequired is strictly increasing in the product assay for fixed
feed assay below the product assay and fixed positive quantity, and is
strictly positive whenever the feed assay lies strictly between the tails
and product assays, all assays lying in the open unit interval. -/
theorem swuRequired_mono_and_pos (qty t f p₁ p₂ : ℝ) (hq : 0 < qty)
    (ht : 0 < t) (htf : t < f) (hf1 : f < p₁) (h12 : p₁ < p₂) (h21 : p₂ < 1) :
    SwuRequired qty (Assays.mk f p₁ t) < SwuRequired qty (Assays.mk f p₂ t) ∧
      0 < SwuRequired qty (Assays.mk f p₁ t) :=
  ⟨swuRequired_strictMono_product hq ht htf hf1 h12 h21,
   swuRequired_pos hq ht htf hf1 (by linarith)⟩

/-- Witness for C9 at the spec example assays: quantity 1, tails 0.003, feed
0.0072, product assays 0.04 and 0.05. -/
theorem swuRequired_mono_and_pos_witness :
    SwuRequired 1 (Assays.mk (72/10000) (4/100) (3/1000)) <
        SwuRequired 1 (Assays.mk (72/10000) (5/100) (3/1000)) ∧
      0 < SwuRequired 1 (Assays.mk (72/10000) (4/100) (3/1000)) :=
  swuRequired_mono_and_pos 1 (3/1000) (72/10000) (4/100) (5/100)
    (by norm_num) (by norm_num) (by norm_num) (by norm_num) (by norm_num)
    (by norm_num)

/-- C1: the bid offered for an output-commodity request of quantity q is the
minimum of q, the quantity producible from the SWU budget S and the quantity
producible from the feed inventory F; producing the bid therefore needs at
most S SWU and at most F feed, and the bid equals q whenever both ceilings
strictly exceed q. -/
theorem getMatlBids_double_constraint (q S F t f p : ℝ) (ht : 0 < t)
    (htf : t < f) (hfp : f < p) (hp1 : p < 1) :
    SwuRequired (bidQty q S F (Assays.mk f p t)) (Assays.mk f p t) ≤ S ∧
      FeedQty (bidQty q S F (Assays.mk f p t)) (Assays.mk f p t) ≤ F ∧
      (q < swuCeilingQty S (Assays.mk f p t) ∧
          q < natuCeilingQty F (Assays.mk f p t) →
        bidQty q S F (Assays.mk f p t) = q) := by
  have hk : 0 < SwuRequired 1 (Assays.mk f p t) :=
    swuRequired_pos one_pos ht htf hfp hp1
  have hkf : 0 < FeedQty 1 (Assays.mk f p t) := by
    rw [FeedQty_mk]
    exact div_pos (by linarith) (by linarith)
  have hb1 : bidQty q S F (Assays.mk f p t) ≤ swuCeilingQty S (Assays.mk f p t) :=
    le_trans (min_le_right q _) (min_le_left _ _)
  have hb2 : bidQty q S F (Assays.mk f p t) ≤ natuCeilingQty F (Assays.mk f p t) :=
    le_trans (min_le_right q _) (min_le_right _ _)
  refine ⟨?_, ?_, fun h => min_eq_left (le_min h.1.le h.2.le)⟩
  · rw [SwuRequired_linear]
    calc bidQty q S F (Assays.mk f p t) * SwuRequired 1 (Assays.mk f p t)
        ≤ swuCeilingQty S (Assays.mk f p t) * SwuRequired 1 (Assays.mk f p t) :=
          mul_le_mul_of_nonneg_right hb1 hk.le
      _ = S := by
          rw [swuCeilingQty]
          exact div_mul_cancel₀ S (ne_of_gt hk)
  · rw [FeedQty_linear]
    calc bidQty q S F (Assays.mk f p t) * FeedQty 1 (Assays.mk f p t)
        ≤ natuCeilingQty F (Assays.mk f p t) * FeedQty 1 (Assays.mk f p t) :=
          mul_le_mul_of_nonneg_right hb2 hkf.le
      _ = F := by
          rw [natuCeilingQty]
          exact div_mul_cancel₀ F (ne_of_gt hkf)

/-- Witness for C1: a request of 1 kg against a 5 kgSWU budget and 5 kg feed
at the spec example assays. -/
theorem getMatlBids_double_constraint_witness :
    SwuRequired (bidQty 1 5 5 (Assays.mk (72/10000) (5/100) (3/1000)))
        (Assays.mk (72/10000) (5/100) (3/1000)) ≤ 5 ∧
      FeedQty (bidQty 1 5 5 (Assays.mk (72/10000) (5/100) (3/1000)))
          (Assays.mk (72/10000) (5/100) (3/1000)) ≤ 5 ∧
      (1 < swuCeilingQty 5 (Assays.mk (72/10000) (5/100) (3/1000)) ∧
          1 < natuCeilingQty 5 (Assays.mk (72/10000) (5/100) (3/1000)) →
        bidQty 1 5 5 (Assays.mk (72/10000) (5/100) (3/1000)) = 1) :=
  getMatlBids_double_constraint 1 5 5 (3/1000) (72/10000) (5/100)
    (by norm_num) (by norm_num) (by norm_num) (by norm_num)

end Cycamore

namespace Cycamore

/-- C6: with a positive output-recipe U-235 fraction, the preference
AdjustMatlPrefs assigns is monotone in the offer U-235 fraction below the
recipe fraction, and an offer whose fraction is zero or exceeds the recipe
fraction gets the rejecting value, strictly below the preference of every
valid offer, so it is never selected over one. -/
theorem adjustMatlPrefs_ranking (recipeFrac f₁ f₂ g f : ℝ)
    (hrf : 0 < recipeFrac) (h0 : 0 ≤ f₁) (h12 : f₁ < f₂) (h2 : f₂ ≤ recipeFrac)
    (hg : g = 0 ∨ recipeFrac < g) (hfpos : 0 < f) (hfr : f ≤ recipeFrac) :
    adjustedPref recipeFrac f₁ ≤ adjustedPref recipeFrac f₂ ∧
      adjustedPref recipeFrac g < adjustedPref recipeFrac f := by
  have hv2 : adjustedPref recipeFrac f₂ = f₂ / recipeFrac := by
    unfold adjustedPref
    rw [if_neg]
    push_neg
    exact ⟨ne_of_gt (lt_of_le_of_lt h0 h12), by linarith⟩
  have hvf : adjustedPref recipeFrac f = f / recipeFrac := by
    unfold adjustedPref
    rw [if_neg]
    push_neg
    exact ⟨ne_of_gt hfpos, hfr⟩
  have hvg : adjustedPref recipeFrac g = -1 := by
    unfold adjustedPref
    rw [if_pos hg]
  constructor
  · rw [hv2]
    by_cases h1z : f₁ = 0 ∨ recipeFrac < f₁
    · have : adjustedPref recipeFrac f₁ = -1 := by
        unfold adjustedPref
        rw [if_pos h1z]
      rw [this]
      have : (0:ℝ) ≤ f₂ / recipeFrac :=
        div_nonneg (by linarith) hrf.le
      linarith
    · have : adjustedPref recipeFrac f₁ = f₁ / recipeFrac := by
        unfold adjustedPref
        rw [if_neg h1z]
      rw [this, div_eq_mul_inv, div_eq_mul_inv]
      exact mul_le_mul_of_nonneg_right h12.le (inv_nonneg.mpr hrf.le)
  · rw [hvg, hvf]
    exact lt_of_lt_of_le (by norm_num) (div_nonneg hfpos.le hrf.le)

/-- Witness for C6: recipe fraction 0.05, valid offers at 0.01, 0.02 and
0.03, and an over-enriched offer at 0.10. -/
theorem adjustMatlPrefs_ranking_witness :
    adjustedPref (5/100) (1/100) ≤ adjustedPref (5/100) (2/100) ∧
      adjustedPref (5/100) (1/10) < adjustedPref (5/100) (3/100) :=
  adjustMatlPrefs_ranking (5/100) (1/100) (2/100) (1/10) (3/100)
    (by norm_num) (by norm_num) (by norm_num) (by norm_num)
    (Or.inr (by norm_num)) (by norm_num) (by norm_num)

/-- C2: a successfully executed trade conserves mass: the natural uranium
drawn equals the product quantity plus the tails quantity produced, the
tails quantity produced is the mass-balance TailsQty, the feed inventory
decreases by exactly the natural uranium drawn, the tails inventory receives
exactly the tails produced, and the SWU budget decreases by exactly the SWU
consumed. -/
theorem enrich_mass_conservation (st : EFRuntime) (qty eps : ℝ) (a : Assays)
    (hft : a.feed ≠ a.tails) (r : EnrichResult)
    (h : Enrich_ st qty a eps = Except.ok r) :
    r.natuUsed = r.productQty + r.tailsProducedQty ∧
      r.tailsProducedQty = TailsQty qty a ∧
      r.state.inventoryQty = st.inventoryQty - r.natuUsed ∧
      r.state.tailsInvQty = st.tailsInvQty + r.tailsProducedQty ∧
      r.state.currentSwu = st.currentSwu - r.swuUsed ∧
      r.natuUsed = FeedQty qty a ∧ r.swuUsed = SwuRequired qty a := by
  unfold Enrich_ at h
  split at h
  · exact absurd h (by simp)
  · injection h with h2
    subst h2
    refine ⟨?_, ?_, rfl, rfl, rfl, rfl, rfl⟩
    · show FeedQty qty a = qty + (FeedQty qty a - qty)
      ring
    · show FeedQty qty a - qty = TailsQty qty a
      have hft2 : a.feed - a.tails ≠ 0 := sub_ne_zero.mpr hft
      unfold FeedQty TailsQty
      field_simp
      ring

/-- Witness for C2: a 1 kg trade with feed and product assay one half and
tails assay one quarter, so the SWU needed is zero and the feed needed is
exactly 1 kg, against a state with 10 kg feed and 5 kgSWU remaining. -/
theorem enrich_mass_conservation_witness :
    (1:ℝ) = 1 + 0 ∧
      (0:ℝ) = TailsQty 1 (Assays.mk (1/2) (1/2) (1/4)) ∧
      (9:ℝ) = 10 - 1 ∧ (0:ℝ) = 0 + 0 ∧ (5:ℝ) = 5 - 0 ∧
      (1:ℝ) = FeedQty 1 (Assays.mk (1/2) (1/2) (1/4)) ∧
      (0:ℝ) = SwuRequired 1 (Assays.mk (1/2) (1/2) (1/4)) :=
  enrich_mass_conservation (EFRuntime.mk 10 0 5) 1 0 (Assays.mk (1/2) (1/2) (1/4))
    (by norm_num) (EnrichResult.mk (EFRuntime.mk 9 0 5) 1 0 1 0)
    (by unfold Enrich_ SwuRequired FeedQty TailsQty V; norm_num)

/-- C3: Enrich_ raises the constraint-violation error exactly when the SWU
needed exceeds the remaining budget plus epsilon or the natural uranium
needed exceeds the feed inventory plus epsilon; a successful run implies
neither constraint was breached and the trade quantity is delivered exactly,
never clamped. -/
theorem enrich_error_characterization (st : EFRuntime) (qty eps : ℝ) (a : Assays) :
    (Enrich_ st qty a eps = Except.error () ↔
        st.currentSwu + eps < SwuRequired qty a ∨
          st.inventoryQty + eps < FeedQty qty a) ∧
      (∀ r : EnrichResult, Enrich_ st qty a eps = Except.ok r →
        r.productQty = qty ∧
          ¬(st.currentSwu + eps < SwuRequired qty a ∨
              st.inventoryQty + eps < FeedQty qty a)) := by
  constructor
  · constructor
    · intro h
      by_contra hc
      unfold Enrich_ at h
      rw [if_neg hc] at h
      exact absurd h (by simp)
    · intro hc
      unfold Enrich_
      rw [if_pos hc]
  · intro r h
    by_cases hc : st.currentSwu + eps < SwuRequired qty a ∨
        st.inventoryQty + eps < FeedQty qty a
    · unfold Enrich_ at h
      rw [if_pos hc] at h
      exact absurd h (by simp)
    · unfold Enrich_ at h
      rw [if_neg hc] at h
      injection h with h2
      subst h2
      exact ⟨rfl, hc⟩

end Cycamore
